import Mathlib

/-!
Shallow embedding of the two source files of
KonishchevDmitry/rust-transmission-controller that carry the core logic:
`src/config.rs` (configuration reading, key preprocessing, validation) and
`src/email.rs` (email-address parsing, template files, template rendering).

Rust strings are modelled as Lean `String`; `rustc_serialize::json::Json`
is modelled by the inductive `Json` below; the `BTreeMap<String, Json>`
backing a JSON object is modelled as its canonical sorted association
list (sorted by byte-lexicographic key order, which on UTF-8 strings
coincides with code-point order).  File and network I/O is outside the
embedding: functions that in Rust read from a file here take the file's
text content (or the already-parsed `Json` document) as an argument.
-/

namespace Transmission

/-! ## String helpers mirroring the Rust standard library -/

/-- Rust `char::is_whitespace`: the Unicode White_Space property. -/
def rustIsWhitespace (c : Char) : Bool :=
  c = ' ' || c = '\t' || c = '\n' || c = '\r' || c = '\x0b' || c = '\x0c' ||
  c = '\u0085' || c = '\u00A0' || c = '\u1680' ||
  ('\u2000' ≤ c && c ≤ '\u200A') ||
  c = '\u2028' || c = '\u2029' || c = '\u202F' || c = '\u205F' || c = '\u3000'

/-- Rust `str::trim`: strip leading and trailing whitespace. -/
def rustTrim (s : String) : String :=
  String.mk (((s.data.dropWhile rustIsWhitespace).reverse.dropWhile
      rustIsWhitespace).reverse)

/-- Rust `str::starts_with(pat)` for a string pattern. -/
def starts_with (s pat : String) : Bool :=
  pat.data.isPrefixOf s.data

/-- One step of Rust `str::replace`: scan the character list left to
right, replacing each non-overlapping occurrence of `pat` by `rep`.
The `fuel` argument makes the recursion structural; callers pass the
length of the scanned list, which is always sufficient because `pat` is
nonempty at every call site (`render_template` always surrounds the key
with the two-brace delimiters). -/
def replaceCore (pat rep : List Char) : Nat → List Char → List Char
  | _, [] => []
  | 0, s => s
  | fuel + 1, c :: rest =>
    if pat.isPrefixOf (c :: rest) then
      rep ++ replaceCore pat rep fuel (List.drop pat.length (c :: rest))
    else
      c :: replaceCore pat rep fuel rest

/-- Rust `str::replace` (for the nonempty patterns used in this code). -/
def rustReplace (s pat rep : String) : String :=
  String.mk (replaceCore pat.data rep.data s.data.length s.data)

/-! ## The JSON document model (`rustc_serialize::json::Json`)

The source's `Json` enum has `Null`, `Boolean`, `I64`, `U64`, `F64`,
`String`, `Array` and `Object` variants.  `I64` and `U64` are fused into
a single integer constructor; `F64` carries a float, which has no exact
counterpart here and is not exercised by any claim, so it is omitted.
An `Object` is a `BTreeMap<String, Json>`, represented as a sorted
association list. -/

inductive Json where
  | null : Json
  | bool (b : Bool) : Json
  | num (n : Int) : Json
  | str (s : String) : Json
  | arr (elems : List Json) : Json
  | obj (entries : List (String × Json)) : Json

/-- Byte-lexicographic comparison of characters (via code points). -/
def charCmp (a b : Char) : Ordering :=
  if a < b then .lt else if b < a then .gt else .eq

/-- Lexicographic comparison of character lists. -/
def strCmpList : List Char → List Char → Ordering
  | [], [] => .eq
  | [], _ :: _ => .lt
  | _ :: _, [] => .gt
  | a :: as, b :: bs =>
    match charCmp a b with
    | .eq => strCmpList as bs
    | o => o

/-- String ordering used by Rust's `BTreeMap<String, _>`:
lexicographic byte order, which on UTF-8 equals code-point order. -/
def strCmp (a b : String) : Ordering :=
  strCmpList a.data b.data

/-- `BTreeMap::get`: first (unique) entry with the given key. -/
def lookupKey (key : String) : List (String × Json) → Option Json
  | [] => none
  | kv :: rest => if kv.1 = key then some kv.2 else lookupKey key rest

/-- `BTreeMap::remove`: drop the entry with the given key. -/
def removeKey (key : String) (l : List (String × Json)) :
    List (String × Json) :=
  l.filter (fun kv => kv.1 != key)

/-- `BTreeMap::insert`: insert at the sorted position, overwriting an
existing entry with the same key. -/
def insertAssoc (k : String) (v : Json) :
    List (String × Json) → List (String × Json)
  | [] => [(k, v)]
  | (k', v') :: rest =>
    match strCmp k k' with
    | .lt => (k, v) :: (k', v') :: rest
    | .eq => (k, v) :: rest
    | .gt => (k', v') :: insertAssoc k v rest

/-- Rust `key.find("-").is_some()`: the key contains a hyphen. -/
def hasHyphen (key : String) : Bool :=
  key.data.contains '-'

/-- Rust `key.replace("-", "_")`: single-character pattern, so a
character-wise map. -/
def replaceHyphens (key : String) : String :=
  String.mk (key.data.map (fun c => if c = '-' then '_' else c))

/-! ## `src/config.rs` -/

/-- The `Config` struct of `src/config.rs`.  `rpc_port: u32` is modelled
as a `Nat`; the decoder enforces the `u32` range. -/
structure Config where
  download_dir : String
  rpc_enabled : Bool
  rpc_bind_address : String
  rpc_port : Nat
  rpc_authentication_required : Bool
  rpc_url : String
  rpc_username : String
  rpc_plain_password : Option String
deriving DecidableEq

/-- The `ConfigReadingError` enum.  `IoError` carries `io::Error` in the
source; only its display text matters here.  The embedded (file-free)
pipeline never produces it. -/
inductive ConfigReadingError where
  | ioError (msg : String) : ConfigReadingError
  | parseError (msg : String) : ConfigReadingError
  | validationError (msg : String) : ConfigReadingError
deriving DecidableEq

/-- The body of the key-rewriting loop of `preprocess_config`, executed
once per key of the snapshot `obj.keys().cloned().collect::<Vec<_>>()`:
a key containing a hyphen is removed and re-inserted under the key with
hyphens replaced by underscores.  The source unwraps the `Option`
returned by `remove`; the `none` fallback below is unreachable because
each snapshot key is processed exactly once and inserted keys never
contain a hyphen. -/
def preprocessStep (obj : List (String × Json)) (key : String) :
    List (String × Json) :=
  if hasHyphen key then
    match lookupKey key obj with
    | some value => insertAssoc (replaceHyphens key) value (removeKey key obj)
    | none => obj
  else obj

/-- `preprocess_config` of `src/config.rs`: fail unless the root is an
object, then rewrite each top-level key containing a hyphen.  The
in-place mutation of the source is rendered as returning the new
document. -/
def preprocess_config (json : Json) : Except ConfigReadingError Json :=
  match json with
  | .obj entries =>
    .ok (.obj ((entries.map Prod.fst).foldl preprocessStep entries))
  | _ => .error (.parseError ("JSON root element in not an object"))

/-- `rustc_serialize` JSON decoding of a `String` field value.  Any
shape mismatch is an `ExpectedError`, which `From<json::DecoderError>`
in the source maps to `ParseError("JSON validation error")`; that
mapping is fused in here. -/
def decodeString : Json → Except ConfigReadingError String
  | .str s => .ok s
  | _ => .error (.parseError ("JSON validation error"))

/-- Decoding of a `bool` field value. -/
def decodeBool : Json → Except ConfigReadingError Bool
  | .bool b => .ok b
  | _ => .error (.parseError ("JSON validation error"))

/-- Decoding of a `u32` field value: an integer in the `u32` range.  A
JSON string is retried as a number (the `read_primitive!` map-key
fallback of `rustc_serialize`), modelled with `String.toNat?`. -/
def decodeU32 : Json → Except ConfigReadingError Nat
  | .num n =>
    if 0 ≤ n ∧ n < 4294967296 then .ok n.toNat
    else .error (.parseError ("JSON validation error"))
  | .str s =>
    match s.toNat? with
    | some n =>
      if n < 4294967296 then .ok n
      else .error (.parseError ("JSON validation error"))
    | none => .error (.parseError ("JSON validation error"))
  | _ => .error (.parseError ("JSON validation error"))

/-- Decoding of an `Option<String>` field value (`read_option`): `Null`
decodes to `None`, anything else must be a string. -/
def decodeOptString : Json → Except ConfigReadingError (Option String)
  | .null => .ok none
  | v => (decodeString v).map some

/-- `rustc_serialize` `read_struct_field`: look the field up in the
object; if it is absent, decode `Null` instead (which succeeds exactly
for `Option` fields) and report `MissingFieldError` otherwise — mapped
by `From<json::DecoderError>` to `ParseError("'<name>' option is
missing")`. -/
def readField {α : Type} (obj : List (String × Json)) (name : String)
    (dec : Json → Except ConfigReadingError α) :
    Except ConfigReadingError α :=
  match lookupKey name obj with
  | some v => dec v
  | none =>
    match dec .null with
    | .ok x => .ok x
    | .error _ =>
      .error (.parseError ("'" ++ name ++ "' option is missing"))

/-- The derived `RustcDecodable` instance for `Config`: a struct decoded
field by field, in declaration order, from an object-shaped document. -/
def decode_config (json : Json) : Except ConfigReadingError Config :=
  match json with
  | .obj o =>
    (readField o ("download_dir") decodeString).bind fun download_dir =>
    (readField o ("rpc_enabled") decodeBool).bind fun rpc_enabled =>
    (readField o ("rpc_bind_address") decodeString).bind fun rpc_bind_address =>
    (readField o ("rpc_port") decodeU32).bind fun rpc_port =>
    (readField o ("rpc_authentication_required") decodeBool).bind
      fun rpc_authentication_required =>
    (readField o ("rpc_url") decodeString).bind fun rpc_url =>
    (readField o ("rpc_username") decodeString).bind fun rpc_username =>
    (readField o ("rpc_plain_password") decodeOptString).bind
      fun rpc_plain_password =>
    .ok { download_dir, rpc_enabled, rpc_bind_address, rpc_port,
          rpc_authentication_required, rpc_url, rpc_username,
          rpc_plain_password }
  | _ => .error (.parseError ("JSON validation error"))

/-- `validate_config` of `src/config.rs`: the four semantic rules, in
source order, short-circuiting at the first violation. -/
def validate_config (config : Config) : Except ConfigReadingError Unit :=
  if !(starts_with config.download_dir ("/")) then
    .error (.validationError
      ("Invalid 'download-dir' value: it must be an absolute path"))
  else if !config.rpc_enabled then
    .error (.validationError ("RPC is disabled in config"))
  else if (rustTrim config.rpc_bind_address).data.isEmpty then
    .error (.validationError
      ("Invalid 'rpc-bind-address' value: it mustn't be empty"))
  else if config.rpc_authentication_required
      && config.rpc_plain_password.isNone then
    .error (.validationError
      ("'rpc-plain-password' is a required option when authentication is enabled"))
  else
    .ok ()

/-- `read_config` of `src/config.rs` from the parsed document onwards:
the `File::open` / `Json::from_reader` part is I/O and text parsing,
outside the embedding, so the function takes the parsed `Json`.  The
`try!` chain preprocesses, decodes, validates, and returns the config. -/
def read_config_from_json (json : Json) : Except ConfigReadingError Config :=
  match preprocess_config json with
  | .error e => .error e
  | .ok json' =>
    match decode_config json' with
    | .error e => .error e
    | .ok config =>
      match validate_config config with
      | .error e => .error e
      | .ok _ => .ok config

mutual
/-- No key of the document, at any nesting depth, contains a hyphen
(the hypothesis of the idempotence claim about key normalization). -/
def noHyphenKeys : Json → Bool
  | Json.obj entries => noHyphenKeysObj entries
  | Json.arr elems => noHyphenKeysArr elems
  | _ => true
def noHyphenKeysArr : List Json → Bool
  | [] => true
  | j :: rest => noHyphenKeys j && noHyphenKeysArr rest
def noHyphenKeysObj : List (String × Json) → Bool
  | [] => true
  | (k, v) :: rest => !(hasHyphen k) && noHyphenKeys v && noHyphenKeysObj rest
end

/-! ## `src/email.rs`

The `Mailbox` of the `email` crate: an optional display name and an
address.  `Mailer::send` performs SMTP I/O and is outside the
embedding; the logic under verification is address parsing, template
file parsing, and template rendering.  The `GenericResult` error type
only carries a formatted message, modelled as `String`. -/

/-- `libemail::Mailbox`. -/
structure Mailbox where
  name : Option String
  address : String
deriving DecidableEq

/-- The `EmailTemplate` struct: a subject and a body, each possibly
containing double-brace placeholders. -/
structure EmailTemplate where
  subject : String
  body : String
deriving DecidableEq

/-- `EmailTemplate::new`. -/
def EmailTemplate.new (subject body : String) : EmailTemplate :=
  { subject, body }

/-! ### Address parsing

`parse_email_address` uses two regexes built from the address pattern
`(?P<address>[a-zA-Z0-9_.+-]+@[a-zA-Z0-9-]+\.[a-zA-Z0-9-.]+)`:

* `email_re` = `^` + pattern + `$`, matched against the raw input;
* `email_with_name_re` = `(?P<name>[^<]+)<` + pattern + `>$` (no `^`),
  matched against the trimmed input.

The recognizers below implement exactly these two patterns.  None of
the character classes contains `@`, `<` or `>`, the first domain class
contains no `.`, and the with-name pattern is end-anchored, so matching
decomposes deterministically: the local part is everything before the
first `@`, the first domain run is everything before the first `.` of
the domain, and in the with-name form the bracketed address is
everything after the last `<`.  Greedy classes with leftmost-first
semantics (the `regex` crate) agree with this decomposition. -/

/-- The class `[a-zA-Z0-9_.+-]` (local part). -/
def isLocalChar (c : Char) : Bool :=
  c.isAlpha || c.isDigit || c = '_' || c = '.' || c = '+' || c = '-'

/-- The class `[a-zA-Z0-9-]` (domain, before the required dot). -/
def isDomainChar (c : Char) : Bool :=
  c.isAlpha || c.isDigit || c = '-'

/-- The class `[a-zA-Z0-9-.]` (domain, after the required dot). -/
def isDomainTailChar (c : Char) : Bool :=
  c.isAlpha || c.isDigit || c = '-' || c = '.'

/-- Split a character list at the first occurrence of `ch`; `none` when
`ch` does not occur. -/
def splitAtChar (ch : Char) : List Char → Option (List Char × List Char)
  | [] => none
  | c :: rest =>
    if c = ch then some ([], rest)
    else
      match splitAtChar ch rest with
      | some (a, b) => some (c :: a, b)
      | none => none

/-- Whole-string match of the address pattern
`[a-zA-Z0-9_.+-]+@[a-zA-Z0-9-]+\.[a-zA-Z0-9-.]+` (as anchored by
`email_re`'s `^...$`). -/
def isAddress (s : List Char) : Bool :=
  match splitAtChar '@' s with
  | none => false
  | some (localPart, domain) =>
    !localPart.isEmpty && localPart.all isLocalChar &&
    (match splitAtChar '.' domain with
     | none => false
     | some (d, t) =>
       !d.isEmpty && d.all isDomainChar && !t.isEmpty && t.all isDomainTailChar)

/-- Attempt of `email_with_name_re` at one start position: a maximal
nonempty run of non-`<` characters (the name), a literal `<`, the
address pattern, and a final `>` ending the string.  Returns the
captured name and address. -/
def matchNameAt (s : List Char) : Option (List Char × List Char) :=
  let name := s.takeWhile (fun c => c ≠ '<')
  if name.isEmpty then none
  else
    match s.drop name.length with
    | '<' :: rest =>
      (match rest.getLast? with
       | some '>' =>
         if isAddress rest.dropLast then some (name, rest.dropLast) else none
       | _ => none)
    | _ => none

/-- Unanchored, leftmost-first search of `email_with_name_re`: try each
start position from the left. -/
def findNameForm : List Char → Option (List Char × List Char)
  | [] => none
  | c :: rest =>
    match matchNameAt (c :: rest) with
    | some r => some r
    | none => findNameForm rest

/-- `parse_email_address` of `src/email.rs`: try the `Name <address>`
form on the trimmed input (name trimmed before storage); otherwise try
the bare anchored address pattern on the raw input (so the address
captured is the whole raw input); otherwise a formatted error naming
the input verbatim. -/
def parse_email_address (email : String) : Except String Mailbox :=
  match findNameForm (rustTrim email).data with
  | some (name, addr) =>
    .ok { name := some (rustTrim (String.mk name)), address := String.mk addr }
  | none =>
    if isAddress email.data then
      .ok { name := none, address := email }
    else
      .error ("Invalid email: '" ++ email ++ "'")

/-! ### Template files -/

/-- `BufRead::read_line`: the characters up to and including the first
newline (or the whole remainder when there is none), plus the rest. -/
def read_line : List Char → List Char × List Char
  | [] => ([], [])
  | c :: rest =>
    if c = '\n' then ([c], rest)
    else
      let p := read_line rest
      (c :: p.1, p.2)

/-- Rust `trim_right_matches(|c| c == '\r' || c == '\n')`: strip
trailing carriage returns and newlines. -/
def stripTrailingNewlines (s : List Char) : List Char :=
  (s.reverse.dropWhile (fun c => c = '\r' || c = '\n')).reverse

/-- The trimmed first line of a template file's content. -/
def templateSubject (content : String) : String :=
  rustTrim (String.mk (read_line content.data).1)

/-- The second line of a template file's content (with its newline). -/
def templateSecondLine (content : String) : List Char :=
  (read_line (read_line content.data).2).1

/-- Everything after the second line of a template file's content. -/
def templateBody (content : String) : String :=
  String.mk (read_line (read_line content.data).2).2

/-- `EmailTemplate::new_from_file` of `src/email.rs`, applied to the
file's text content (`File::open` and the read calls are I/O): line 1,
trimmed, is the subject and must be nonempty; line 2, stripped of
trailing line endings, must be empty; the remainder is the body,
verbatim. -/
def new_from_file_content (content : String) : Except String EmailTemplate :=
  let p1 := read_line content.data
  let subject := rustTrim (String.mk p1.1)
  if subject.data.isEmpty then
    .error ("The first line must be a message Subject")
  else
    let p2 := read_line p1.2
    if !(stripTrailingNewlines p2.1).isEmpty then
      .error ("The second line must be empty")
    else
      .ok (EmailTemplate.new subject (String.mk p2.2))

/-! ### Template rendering

`render_template` iterates over a `HashMap<&str, String>`; Rust leaves
the iteration order of a `HashMap` unspecified (and randomizes it), so
the parameter mapping is embedded as the list of key/value pairs in
the order the loop visits them. -/

/-- `render_template` of `src/email.rs`: for each parameter in
iteration order, replace every occurrence of the key wrapped in double
braces by the value, full-string and left to right.  The signature is
fallible (`GenericResult`) but the body always returns `Ok`. -/
def render_template (template : String) (params : List (String × String)) :
    Except String String :=
  .ok (params.foldl
    (fun result kv => rustReplace result ("\x7b\x7b" ++ kv.1 ++ "\x7d\x7d") kv.2)
    template)

/-- `EmailTemplate::render`: render the subject and the body with the
same parameters. -/
def EmailTemplate.render (t : EmailTemplate)
    (params : List (String × String)) : Except String (String × String) :=
  match render_template t.subject params, render_template t.body params with
  | .ok s, .ok b => .ok (s, b)
  | .error e, _ => .error e
  | _, .error e => .error e

deriving instance DecidableEq for Except

/-! ## Concrete sample inputs used by witnesses -/

/-- A well-formed configuration document, with the hyphen-separated keys
of the user-facing file format, in `BTreeMap` (sorted) key order. -/
def sample_config_json : Json := .obj [
  ("download-dir", .str "/var/lib/transmission/downloads"),
  ("rpc-authentication-required", .bool true),
  ("rpc-bind-address", .str "127.0.0.1"),
  ("rpc-enabled", .bool true),
  ("rpc-plain-password", .str "secret"),
  ("rpc-port", .num 9091),
  ("rpc-url", .str "/transmission/rpc"),
  ("rpc-username", .str "user")]

/-- The `Config` that `sample_config_json` decodes to. -/
def sample_config : Config :=
  ⟨"/var/lib/transmission/downloads", true, "127.0.0.1", 9091, true,
   "/transmission/rpc", "user", some ("secret")⟩

/-! ## Helper lemmas about the key-rewriting fold -/

/-- Mapping hyphens to underscores leaves no hyphen behind. -/
lemma contains_hyphen_map_replace (cs : List Char) :
    ((cs.map (fun c => if c = '-' then '_' else c)).contains '-') = false := by
  induction cs with
  | nil => rfl
  | cons c cs ih =>
    simp only [List.map_cons, List.contains_cons, ih, Bool.or_false]
    by_cases hc : c = '-'
    · simp [hc]
    · simp only [if_neg hc, beq_eq_false_iff_ne]
      exact fun hh => hc hh.symm

/-- A rewritten key contains no hyphen. -/
lemma hasHyphen_replaceHyphens (k : String) :
    hasHyphen (replaceHyphens k) = false := by
  simpa [hasHyphen, replaceHyphens] using contains_hyphen_map_replace k.data

/-- Every entry of `insertAssoc k v l` is the inserted pair or an
original entry. -/
lemma mem_insertAssoc {kv' : String × Json} {k : String} {v : Json} :
    ∀ {l : List (String × Json)}, kv' ∈ insertAssoc k v l →
      kv' = (k, v) ∨ kv' ∈ l := by
  intro l
  induction l with
  | nil => intro h; simpa [insertAssoc] using h
  | cons hd tl ih =>
    obtain ⟨k', v'⟩ := hd
    intro h
    rcases hcmp : strCmp k k' with _ | _ | _ <;>
      simp only [insertAssoc, hcmp, List.mem_cons] at h
    · rcases h with h | h | h
      · exact Or.inl h
      · exact Or.inr (by simp [h])
      · exact Or.inr (List.mem_cons_of_mem _ h)
    · rcases h with h | h
      · exact Or.inl h
      · exact Or.inr (List.mem_cons_of_mem _ h)
    · rcases h with h | h
      · exact Or.inr (by simp [h])
      · rcases ih h with h' | h'
        · exact Or.inl h'
        · exact Or.inr (List.mem_cons_of_mem _ h')

/-- Keys after `insertAssoc`: the inserted key or an original key. -/
lemma mem_keys_insertAssoc {k₁ k : String} {v : Json} {l : List (String × Json)}
    (h : k₁ ∈ (insertAssoc k v l).map Prod.fst) :
    k₁ = k ∨ k₁ ∈ l.map Prod.fst := by
  rcases List.mem_map.mp h with ⟨kv, hkv, hfst⟩
  rcases mem_insertAssoc hkv with h' | h'
  · left; subst hfst; rw [h']
  · right; exact List.mem_map.mpr ⟨kv, h', hfst⟩

/-- Keys after `removeKey`: original keys other than the removed one. -/
lemma mem_keys_removeKey {k₁ key : String} {l : List (String × Json)}
    (h : k₁ ∈ (removeKey key l).map Prod.fst) :
    k₁ ∈ l.map Prod.fst ∧ k₁ ≠ key := by
  rcases List.mem_map.mp h with ⟨kv, hkv, hfst⟩
  rcases List.mem_filter.mp hkv with ⟨hmem, hne⟩
  refine ⟨List.mem_map.mpr ⟨kv, hmem, hfst⟩, ?_⟩
  subst hfst
  exact bne_iff_ne.mp hne

/-- A failed lookup means the key is absent. -/
lemma lookupKey_none_not_mem {key : String} :
    ∀ {l : List (String × Json)}, lookupKey key l = none →
      key ∉ l.map Prod.fst := by
  intro l
  induction l with
  | nil => intro _ h; simp at h
  | cons hd tl ih =>
    intro h hmem
    by_cases hk : hd.1 = key
    · simp [lookupKey, hk] at h
    · simp only [lookupKey, if_neg hk] at h
      rcases List.mem_map.mp hmem with ⟨kv, hkv, hfst⟩
      rcases List.mem_cons.mp hkv with h' | h'
      · exact hk (h' ▸ hfst)
      · exact ih h (List.mem_map.mpr ⟨kv, h', hfst⟩)

/-- A successful lookup returns one of the stored values. -/
lemma lookupKey_some_mem_values {key : String} {v : Json} :
    ∀ {l : List (String × Json)}, lookupKey key l = some v →
      v ∈ l.map Prod.snd := by
  intro l
  induction l with
  | nil => intro h; simp [lookupKey] at h
  | cons hd tl ih =>
    intro h
    by_cases hk : hd.1 = key
    · simp only [lookupKey, if_pos hk, Option.some.injEq] at h
      exact List.mem_map.mpr ⟨hd, List.mem_cons_self _ _, h⟩
    · simp only [lookupKey, if_neg hk] at h
      exact List.mem_cons_of_mem _ (ih h)

/-- Values after `insertAssoc`: the inserted value or an original one. -/
lemma mem_values_insertAssoc {v₁ v : Json} {k : String} {l : List (String × Json)}
    (h : v₁ ∈ (insertAssoc k v l).map Prod.snd) :
    v₁ = v ∨ v₁ ∈ l.map Prod.snd := by
  rcases List.mem_map.mp h with ⟨kv, hkv, hsnd⟩
  rcases mem_insertAssoc hkv with h' | h'
  · left; subst hsnd; rw [h']
  · right; exact List.mem_map.mpr ⟨kv, h', hsnd⟩

/-- Values after `removeKey` come from the original list. -/
lemma mem_values_removeKey {v₁ : Json} {key : String} {l : List (String × Json)}
    (h : v₁ ∈ (removeKey key l).map Prod.snd) :
    v₁ ∈ l.map Prod.snd := by
  rcases List.mem_map.mp h with ⟨kv, hkv, hsnd⟩
  exact List.mem_map.mpr ⟨kv, (List.mem_filter.mp hkv).1, hsnd⟩

/-- Invariant of the key-rewriting fold: if every current key is
hyphen-free or still scheduled for processing, then after the fold all
keys are hyphen-free. -/
lemma foldl_preprocessStep_keys :
    ∀ (ks : List String) (acc : List (String × Json)),
      (∀ k ∈ acc.map Prod.fst, hasHyphen k = false ∨ k ∈ ks) →
      ∀ k ∈ (ks.foldl preprocessStep acc).map Prod.fst, hasHyphen k = false := by
  intro ks
  induction ks with
  | nil =>
    intro acc h k hk
    rcases h k hk with h' | h'
    · exact h'
    · simp at h'
  | cons s rest ih =>
    intro acc h k hk
    rw [List.foldl_cons] at hk
    refine ih (preprocessStep acc s) ?_ k hk
    intro k₁ hk₁
    by_cases hs : hasHyphen s = true
    · simp only [preprocessStep, hs, if_true] at hk₁
      cases hl : lookupKey s acc with
      | none =>
        rw [hl] at hk₁
        rcases h k₁ hk₁ with h' | h'
        · exact Or.inl h'
        · rcases List.mem_cons.mp h' with h'' | h''
          · exact absurd (h'' ▸ hk₁) (lookupKey_none_not_mem hl)
          · exact Or.inr h''
      | some v =>
        rw [hl] at hk₁
        rcases mem_keys_insertAssoc hk₁ with h' | h'
        · exact Or.inl (h' ▸ hasHyphen_replaceHyphens s)
        · rcases mem_keys_removeKey h' with ⟨hmem, hne⟩
          rcases h k₁ hmem with h'' | h''
          · exact Or.inl h''
          · rcases List.mem_cons.mp h'' with h3 | h3
            · exact absurd h3 hne
            · exact Or.inr h3
    · have hs' : hasHyphen s = false := by
        cases hval : hasHyphen s
        · rfl
        · exact absurd hval hs
      simp only [preprocessStep, hs', if_neg] at hk₁
      rcases h k₁ (by simpa using hk₁) with h' | h'
      · exact Or.inl h'
      · rcases List.mem_cons.mp h' with h'' | h''
        · exact Or.inl (h'' ▸ hs')
        · exact Or.inr h''

/-- The key-rewriting fold only moves values around: every value it
leaves in the object was a value of the starting object. -/
lemma foldl_preprocessStep_values :
    ∀ (ks : List String) (acc : List (String × Json)) (orig : List Json),
      (∀ v ∈ acc.map Prod.snd, v ∈ orig) →
      ∀ v ∈ (ks.foldl preprocessStep acc).map Prod.snd, v ∈ orig := by
  intro ks
  induction ks with
  | nil => intro acc orig h v hv; exact h v hv
  | cons s rest ih =>
    intro acc orig h v hv
    rw [List.foldl_cons] at hv
    refine ih (preprocessStep acc s) orig ?_ v hv
    intro v₁ hv₁
    by_cases hs : hasHyphen s = true
    · simp only [preprocessStep, hs, if_true] at hv₁
      cases hl : lookupKey s acc with
      | none => rw [hl] at hv₁; exact h v₁ hv₁
      | some w =>
        rw [hl] at hv₁
        rcases mem_values_insertAssoc hv₁ with h' | h'
        · exact h' ▸ h w (lookupKey_some_mem_values hl)
        · exact h v₁ (mem_values_removeKey h')
    · have hs' : hasHyphen s = false := by
        cases hval : hasHyphen s
        · rfl
        · exact absurd hval hs
      simp only [preprocessStep, hs', if_neg] at hv₁
      exact h v₁ (by simpa using hv₁)

/-- Folding the rewriting step over hyphen-free keys changes nothing. -/
lemma foldl_preprocessStep_id :
    ∀ (ks : List String), (∀ k ∈ ks, hasHyphen k = false) →
      ∀ acc : List (String × Json), ks.foldl preprocessStep acc = acc := by
  intro ks
  induction ks with
  | nil => intro _ acc; rfl
  | cons s rest ih =>
    intro h acc
    rw [List.foldl_cons]
    have hs : hasHyphen s = false := h s (List.mem_cons_self _ _)
    have hstep : preprocessStep acc s = acc := by simp [preprocessStep, hs]
    rw [hstep]
    exact ih (fun k hk => h k (List.mem_cons_of_mem _ hk)) acc

/-- The top-level keys of a document all of whose keys are hyphen-free
are hyphen-free. -/
lemma noHyphenKeysObj_keys :
    ∀ entries : List (String × Json), noHyphenKeysObj entries = true →
      ∀ k ∈ entries.map Prod.fst, hasHyphen k = false := by
  intro entries
  induction entries with
  | nil => intro _ k hk; simp at hk
  | cons hd tl ih =>
    obtain ⟨k₀, v₀⟩ := hd
    intro h k hk
    simp only [noHyphenKeysObj, Bool.and_eq_true, Bool.not_eq_true'] at h
    rcases (by simpa using hk : k = k₀ ∨ ∃ x, (k, x) ∈ tl) with h' | ⟨x, hx⟩
    · exact h' ▸ h.1.1
    · exact ih h.2 k (List.mem_map.mpr ⟨(k, x), hx, rfl⟩)

/-- Characterization of validation success: all four rules hold. -/
lemma validate_config_eq_ok_iff (c : Config) :
    validate_config c = .ok () ↔
      starts_with c.download_dir "/" = true ∧
      c.rpc_enabled = true ∧
      (rustTrim c.rpc_bind_address).data.isEmpty = false ∧
      (c.rpc_authentication_required && c.rpc_plain_password.isNone) = false := by
  unfold validate_config
  cases h1 : starts_with c.download_dir "/" <;>
  cases h2 : c.rpc_enabled <;>
  cases h3 : (rustTrim c.rpc_bind_address).data.isEmpty <;>
  cases h4 : c.rpc_authentication_required && c.rpc_plain_password.isNone <;>
  simp [h1, h2, h3, h4]

/-! ## Claim theorems -/

/-- Claim C1, counterexample: a `Config` with `rpc_enabled = false` but a
relative `download_dir` fails validation with the download-dir message,
not with "RPC is disabled in config" — the download-dir rule is checked
first, so the claim's "regardless of all other fields" is false. -/
theorem c1_counterexample :
    validate_config ⟨"relative", false, "b", 1, false, "u", "n", none⟩ =
      .error (.validationError ("Invalid 'download-dir' value: it must be an absolute path")) ∧
    validate_config ⟨"relative", false, "b", 1, false, "u", "n", none⟩ ≠
      .error (.validationError ("RPC is disabled in config")) := by decide

/-- Claim C1, amended: for every `Config` with `rpc_enabled = false`
whose `download_dir` does start with a slash, `validate_config` returns
the `ValidationError` with message "RPC is disabled in config",
regardless of all remaining field values. -/
theorem c1_rpc_disabled_message (c : Config) (h1 : c.rpc_enabled = false)
    (h2 : starts_with c.download_dir ("/") = true) :
    validate_config c = .error (.validationError ("RPC is disabled in config")) := by
  simp [validate_config, h1, h2]

/-- Claim C1, witness: the amended theorem applied to a concrete
disabled-RPC config with an absolute download directory. -/
theorem c1_witness :
    validate_config ⟨"/downloads", false, "b", 1, false, "u", "n", none⟩ =
      .error (.validationError ("RPC is disabled in config")) :=
  c1_rpc_disabled_message ⟨"/downloads", false, "b", 1, false, "u", "n", none⟩
    (by decide) (by decide)

/-- Claim C3: `validate_config` applies its four rules in source order —
download_dir starts with a slash, rpc_enabled, trimmed rpc_bind_address
nonempty, and password present when authentication is required — it
short-circuits at the first violated rule with exactly that rule's
message, and succeeds when all four hold. -/
theorem c3_validate_rules (c : Config) :
    (starts_with c.download_dir ("/") = false →
      validate_config c = .error (.validationError ("Invalid 'download-dir' value: it must be an absolute path"))) ∧
    (starts_with c.download_dir ("/") = true → c.rpc_enabled = false →
      validate_config c = .error (.validationError ("RPC is disabled in config"))) ∧
    (starts_with c.download_dir ("/") = true → c.rpc_enabled = true →
      (rustTrim c.rpc_bind_address).data.isEmpty = true →
      validate_config c = .error (.validationError ("Invalid 'rpc-bind-address' value: it mustn't be empty"))) ∧
    (starts_with c.download_dir ("/") = true → c.rpc_enabled = true →
      (rustTrim c.rpc_bind_address).data.isEmpty = false →
      c.rpc_authentication_required = true → c.rpc_plain_password = none →
      validate_config c = .error (.validationError ("'rpc-plain-password' is a required option when authentication is enabled"))) ∧
    (starts_with c.download_dir ("/") = true → c.rpc_enabled = true →
      (rustTrim c.rpc_bind_address).data.isEmpty = false →
      (c.rpc_authentication_required = false ∨ c.rpc_plain_password ≠ none) →
      validate_config c = .ok ()) := by
  refine ⟨?_, ?_, ?_, ?_, ?_⟩
  · intro h1; simp [validate_config, h1]
  · intro h1 h2; simp [validate_config, h1, h2]
  · intro h1 h2 h3; simp [validate_config, h1, h2, h3]
  · intro h1 h2 h3 h4 h5; simp [validate_config, h1, h2, h3, h4, h5]
  · intro h1 h2 h3 h4
    rcases h4 with h4 | h4
    · simp [validate_config, h1, h2, h3, h4]
    · cases hp : c.rpc_plain_password with
      | none => exact absurd hp h4
      | some p => simp [validate_config, h1, h2, h3, hp]

/-- Claim C3, witness: the success branch of the rules theorem applied
to a concrete config satisfying all four rules. -/
theorem c3_witness :
    validate_config ⟨"/d", true, "b", 1, false, "u", "n", none⟩ = .ok () :=
  (c3_validate_rules ⟨"/d", true, "b", 1, false, "u", "n", none⟩).2.2.2.2
    (by decide) (by decide) (by decide) (Or.inl (by decide))

/-- Claim C9: every `Config` the reading pipeline returns has passed
`validate_config`, and therefore satisfies all four semantic rules:
absolute download directory, RPC enabled, non-blank trimmed bind
address, and a password whenever authentication is required. -/
theorem c9_validated_invariant (j : Json) (c : Config)
    (h : read_config_from_json j = .ok c) :
    validate_config c = .ok () ∧
    starts_with c.download_dir ("/") = true ∧
    c.rpc_enabled = true ∧
    (rustTrim c.rpc_bind_address).data.isEmpty = false ∧
    (c.rpc_authentication_required = true → c.rpc_plain_password ≠ none) := by
  unfold read_config_from_json at h
  split at h
  · exact Except.noConfusion h
  split at h
  · exact Except.noConfusion h
  split at h
  · exact Except.noConfusion h
  rename_i u hv
  injection h with h
  subst h
  cases u
  have hprops := (validate_config_eq_ok_iff _).mp hv
  refine ⟨hv, hprops.1, hprops.2.1, hprops.2.2.1, ?_⟩
  intro ha hnone
  have h4 := hprops.2.2.2
  rw [ha, hnone] at h4
  simp at h4

/-- Claim C9, witness: the invariant theorem applied to a concrete
well-formed configuration document and the config it decodes to. -/
theorem c9_witness :
    validate_config sample_config = .ok () ∧
    starts_with sample_config.download_dir ("/") = true ∧
    sample_config.rpc_enabled = true ∧
    (rustTrim sample_config.rpc_bind_address).data.isEmpty = false ∧
    (sample_config.rpc_authentication_required = true →
      sample_config.rpc_plain_password ≠ none) :=
  c9_validated_invariant sample_config_json sample_config (by decide)

/-- Claim C2, counterexample: preprocessing does not recurse — a
document whose only hyphenated key sits one level down is returned
completely unchanged, while the claim requires that nested key to be
rewritten to its underscore form (a different document). -/
theorem c2_counterexample :
    preprocess_config (Json.obj [("a", Json.obj [("b-c", Json.null)])]) =
      .ok (Json.obj [("a", Json.obj [("b-c", Json.null)])]) ∧
    Json.obj [("a", Json.obj [("b-c", Json.null)])] ≠
      Json.obj [("a", Json.obj [("b_c", Json.null)])] := by
  refine ⟨rfl, ?_⟩
  simp

/-- Claim C2, amended: preprocessing rewrites hyphenated keys of the
top level only.  After it, no top-level key contains a hyphen, every
remaining value is one of the original top-level values taken verbatim
(nested objects are not descended into), a rewritten key's value
overwrites the value previously stored at the destination key, and a
nested hyphenated key survives unchanged. -/
theorem c2_top_level_rewrite :
    (∀ (entries entries' : List (String × Json)),
      preprocess_config (Json.obj entries) = .ok (Json.obj entries') →
      (∀ k ∈ entries'.map Prod.fst, hasHyphen k = false) ∧
      (∀ kv ∈ entries', kv.2 ∈ entries.map Prod.snd)) ∧
    preprocess_config (Json.obj [("a-b", Json.num 2), ("a_b", Json.num 1)]) =
      .ok (Json.obj [("a_b", Json.num 2)]) ∧
    preprocess_config (Json.obj [("x-y", Json.obj [("p-q", Json.null)])]) =
      .ok (Json.obj [("x_y", Json.obj [("p-q", Json.null)])]) := by
  refine ⟨?_, rfl, rfl⟩
  intro entries entries' h
  have hinj : (entries.map Prod.fst).foldl preprocessStep entries = entries' := by
    simpa [preprocess_config] using h
  constructor
  · intro k hk
    rw [← hinj] at hk
    exact foldl_preprocessStep_keys _ entries (fun k₁ hk₁ => Or.inr hk₁) k hk
  · intro kv hkv
    rw [← hinj] at hkv
    exact foldl_preprocessStep_values _ entries (entries.map Prod.snd)
      (fun v hv => hv) kv.2 (List.mem_map.mpr ⟨kv, hkv, rfl⟩)

/-- Claim C2, witness: the general part of the amended theorem applied
to the concrete collision document. -/
theorem c2_witness : hasHyphen ("a_b") = false :=
  ((c2_top_level_rewrite.1 [("a-b", Json.num 2), ("a_b", Json.num 1)]
    [("a_b", Json.num 2)] rfl).1) ("a_b") (by simp)

/-- Claim C8: key normalization is idempotent — a document none of
whose keys (at any depth) contains a hyphen is returned unchanged, and
re-running preprocessing on any of its outputs is the identity on that
output. -/
theorem c8_idempotent :
    (∀ entries : List (String × Json), noHyphenKeys (Json.obj entries) = true →
      preprocess_config (Json.obj entries) = .ok (Json.obj entries)) ∧
    (∀ j j' : Json, preprocess_config j = .ok j' →
      preprocess_config j' = .ok j') := by
  constructor
  · intro entries h
    have h' : noHyphenKeysObj entries = true := by
      simpa [noHyphenKeys] using h
    have hk := noHyphenKeysObj_keys entries h'
    simp [preprocess_config, foldl_preprocessStep_id _ hk]
  · intro j j' h
    cases j with
    | obj entries =>
      have hinj : Json.obj ((entries.map Prod.fst).foldl preprocessStep entries) = j' := by
        simpa [preprocess_config] using h
      subst hinj
      have hk := foldl_preprocessStep_keys (entries.map Prod.fst) entries
        (fun k hk => Or.inr hk)
      simp [preprocess_config, foldl_preprocessStep_id _ hk]
    | null => simp [preprocess_config] at h
    | bool b => simp [preprocess_config] at h
    | num n => simp [preprocess_config] at h
    | str s => simp [preprocess_config] at h
    | arr elems => simp [preprocess_config] at h

/-- Claim C8, witness: the idempotence theorem applied to a concrete
hyphen-free document. -/
theorem c8_witness :
    preprocess_config (Json.obj [("ab", Json.null)]) =
      .ok (Json.obj [("ab", Json.null)]) :=
  c8_idempotent.1 [("ab", Json.null)]
    (by simp [noHyphenKeys, noHyphenKeysObj, hasHyphen])

/-- Claim C4, counterexample: with iteration order a then b, the value
substituted for key a (which is exactly key b's placeholder text) IS
re-scanned by key b's later pass and replaced by b's value, so the
output is "X" instead of the literal placeholder the claim requires. -/
theorem c4_counterexample :
    render_template ("\x7b\x7ba\x7d\x7d") [("a", "\x7b\x7bb\x7d\x7d"), ("b", "X")] =
      .ok ("X") := by decide

/-- Claim C4, amended: a substituted value is re-scanned by the passes
of keys that come later in iteration order but by no earlier key's
pass; with key b processed before key a, the placeholder for b injected
by a's value stays literally in the output, while with a processed
before b it is replaced by b's value.  (The `HashMap` iteration order is
unspecified in Rust, so both orders occur.) -/
theorem c4_order_dependent :
    render_template ("\x7b\x7ba\x7d\x7d") [("b", "X"), ("a", "\x7b\x7bb\x7d\x7d")] =
      .ok ("\x7b\x7bb\x7d\x7d") ∧
    render_template ("\x7b\x7ba\x7d\x7d") [("a", "\x7b\x7bb\x7d\x7d"), ("b", "X")] =
      .ok ("X") := by decide

/-- Claim C5, counterexample: on the input with a leading space, the
trimmed input is a full match of the address pattern, yet parsing fails
— the bare-address form is matched against the raw input, not the
trimmed input as the claim states. -/
theorem c5_counterexample :
    isAddress (rustTrim (" jane@example.com")).data = true ∧
    parse_email_address (" jane@example.com") =
      .error ("Invalid email: ' jane@example.com'") := by decide

/-- Claim C5, amended: parsing first tries the named form (nonempty
non-angle-bracket name, bracketed address) on the trimmed input, then
the bare anchored address pattern on the RAW input (so surrounding
whitespace makes the bare form fail), and otherwise reports the invalid
input verbatim; the three example inputs behave as the claim lists. -/
theorem c5_parse_email :
    parse_email_address ("Jane Doe <jane@example.com>") =
      .ok ⟨some ("Jane Doe"), ("jane@example.com")⟩ ∧
    parse_email_address ("jane@example.com") = .ok ⟨none, ("jane@example.com")⟩ ∧
    parse_email_address ("not-an-email") = .error ("Invalid email: 'not-an-email'") ∧
    parse_email_address (" jane@example.com") =
      .error ("Invalid email: ' jane@example.com'") := by decide

/-- Claim C6, counterexample: a file whose first line is blank AND
whose second line is non-empty fails with the subject message, not with
the second-line message, so "fails with the second-line error exactly
when the second line is non-empty" is false. -/
theorem c6_counterexample :
    new_from_file_content ("\nx\n") =
      .error ("The first line must be a message Subject") ∧
    (stripTrailingNewlines (templateSecondLine ("\nx\n"))).isEmpty = false ∧
    new_from_file_content ("\nx\n") ≠
      .error ("The second line must be empty") := by decide

/-- Claim C6, amended: loading a template from file content fails with
the subject error exactly when the trimmed first line is empty; fails
with the second-line error exactly when the trimmed first line is
nonempty AND the second line is non-empty after stripping trailing
carriage returns and newlines; and otherwise succeeds with the trimmed
first line as subject and the rest of the file, verbatim, as body. -/
theorem c6_template_file_rules (content : String) :
    (new_from_file_content content =
        .error ("The first line must be a message Subject") ↔
      (templateSubject content).data.isEmpty = true) ∧
    (new_from_file_content content = .error ("The second line must be empty") ↔
      ((templateSubject content).data.isEmpty = false ∧
       (stripTrailingNewlines (templateSecondLine content)).isEmpty = false)) ∧
    ((templateSubject content).data.isEmpty = false →
      (stripTrailingNewlines (templateSecondLine content)).isEmpty = true →
      new_from_file_content content =
        .ok (EmailTemplate.new (templateSubject content) (templateBody content))) := by
  unfold new_from_file_content templateSubject templateSecondLine templateBody
  cases h1 : (rustTrim (String.mk (read_line content.data).1)).data.isEmpty <;>
  cases h2 : (stripTrailingNewlines (read_line (read_line content.data).2).1).isEmpty <;>
  simp [h1, h2, EmailTemplate.new]

/-- Claim C6, witness: the success branch of the amended theorem
applied to a concrete well-formed template file. -/
theorem c6_witness :
    new_from_file_content ("Subject\n\nBody") =
      .ok (EmailTemplate.new ("Subject") ("Body")) := by
  rw [(c6_template_file_rules ("Subject\n\nBody")).2.2 (by decide) (by decide)]
  decide

/-- Claim C7: rendering the subject "Hi" and body "Bye" templates with
the name placeholder and the mapping name to Bob yields "Hi Bob" and
"Bye Bob"; rendering any template with the empty mapping returns the
subject and body unchanged; and a placeholder whose key is absent from
the mapping stays untouched in the output without an error. -/
theorem c7_render_examples :
    EmailTemplate.render ⟨"Hi \x7b\x7bname\x7d\x7d", "Bye \x7b\x7bname\x7d\x7d"⟩
        [("name", "Bob")] = .ok ("Hi Bob", "Bye Bob") ∧
    (∀ t : EmailTemplate, t.render [] = .ok (t.subject, t.body)) ∧
    render_template ("Hi \x7b\x7bother\x7d\x7d") [("name", "Bob")] =
      .ok ("Hi \x7b\x7bother\x7d\x7d") :=
  ⟨by decide, fun t => rfl, by decide⟩

/-- Claim C10: template rendering is total — for every template string,
every template, and every parameter sequence, `render_template` and
`EmailTemplate.render` return a success value despite their fallible
signatures. -/
theorem c10_render_infallible (template : String) (t : EmailTemplate)
    (params : List (String × String)) :
    (∃ s, render_template template params = .ok s) ∧
    (∃ p, t.render params = .ok p) :=
  ⟨⟨_, rfl⟩, ⟨_, rfl⟩⟩

end Transmission
